import Mathlib

/- Shallow embedding of the fare-collection pipeline of the thyticket
repository: src/fetcher.py (FX rates, price parsing, fetch strategy,
pipeline driver), src/database.py (persistence store) and the constants
of src/config.py that the core reads.  Python floats are modelled as
rationals, Python dicts as association lists with first-match lookup and
replace-on-assign insertion, and the external collaborators (the
fast-flights retrieval call, the yfinance rate lookup, the wall clock)
as explicit environment parameters. -/

namespace ThyTicket

/-- Maximum offers kept per retrieval call (config.MAX_RESULTS). -/
def MAX_RESULTS : ℕ := 10

/-- Search horizons in days (config.SEARCH_HORIZONS). -/
def SEARCH_HORIZONS : List ℤ := [7, 30, 90]

/-- A Python dict from currency code to USD multiplier, as an association
list.  Lookup returns the first binding; assignment replaces in place. -/
abbrev RateMap := List (String × ℚ)

/-- Dict lookup: first binding for the key, if any. -/
def RateMap.find : RateMap → String → Option ℚ
  | [], _ => none
  | (k, v) :: rest, c => if k = c then some v else RateMap.find rest c

/-- Dict assignment `m[k] = v`: replace the existing binding or append. -/
def dinsert : RateMap → String → ℚ → RateMap
  | [], k, v => [(k, v)]
  | (k', v') :: rest, k, v =>
      if k' = k then (k, v) :: rest else (k', v') :: dinsert rest k v

/-- Dict update `m.update(u)`: assign every binding of `u` into `m`. -/
def dictUpdate (m : RateMap) (u : RateMap) : RateMap :=
  u.foldl (fun acc kv => dinsert acc kv.1 kv.2) m

/-- Static fallback FX rates (fetcher.FALLBACK_RATES). -/
def FALLBACK_RATES : RateMap :=
  [("TRY", 274/10000), ("EUR", 108/100), ("GBP", 127/100), ("USD", 1)]

/-- Currencies looked up live (fetcher.CURRENCIES_NEEDED). -/
def CURRENCIES_NEEDED : List String := ["TRY", "EUR", "GBP"]

/-- Environment of `fetch_fx_rates`: `closes = none` models the whole
`yf.download` call (or the `Close` access) raising; `closes = some cl`
models a successful download where `cl t` is the per-ticker last close
(`none` when indexing that ticker raises). -/
structure FxEnv where
  closes : Option (String → Option ℚ)

/-- Embedding of fetcher.fetch_fx_rates.  Starts from `{"USD": 1.0}`;
on a successful download each needed currency gets its live rate unless
the per-ticker lookup raises or the rate is non-positive, in which case
the static fallback is assigned for that currency only; if the download
itself raises, the whole fallback table is merged in.  (The direct index
`FALLBACK_RATES[currency]` cannot fail because every needed currency has
a fallback; `getD 0` is a harmless total stand-in for it.) -/
def fetch_fx_rates (env : FxEnv) : RateMap :=
  match env.closes with
  | some cl =>
      CURRENCIES_NEEDED.foldl
        (fun rates c =>
          match cl (c ++ "USD=X") with
          | some r =>
              if r ≤ 0 then dinsert rates c ((RateMap.find FALLBACK_RATES c).getD 0)
              else dinsert rates c r
          | none => dinsert rates c ((RateMap.find FALLBACK_RATES c).getD 0))
        [("USD", 1)]
  | none => dictUpdate [("USD", 1)] FALLBACK_RATES

/-- Whitespace for Python `str.strip` on the inputs this core sees
(includes the non-breaking space that appears in raw price strings). -/
def pyIsSpace (c : Char) : Bool :=
  c == ' ' || c == '\t' || c == '\n' || c == '\r' || c == '\x0b' || c == '\x0c' || c == '\xA0'

/-- Remove trailing whitespace (the right half of Python `str.strip`). -/
def rstrip : List Char → List Char
  | [] => []
  | c :: cs =>
      let r := rstrip cs
      if r.isEmpty && pyIsSpace c then [] else c :: r

/-- Python `str.strip`: drop leading and trailing whitespace. -/
def pyStrip (s : List Char) : List Char :=
  rstrip (s.dropWhile pyIsSpace)

/-- Embedding of fetcher.parse_currency: strip, then `$` means USD,
otherwise a leading run of three ASCII uppercase letters is the code
(regex `[A-Z]{3}` anchored at the start), defaulting to USD. -/
def parse_currency (s : List Char) : String :=
  match pyStrip s with
  | '$' :: _ => "USD"
  | a :: b :: c :: _ =>
      if a.isUpper && b.isUpper && c.isUpper then String.mk [a, b, c] else "USD"
  | _ => "USD"

/-- Value of a list of decimal digit characters, most significant first. -/
def digitsVal (l : List Char) : ℕ :=
  l.foldl (fun a c => 10 * a + (c.toNat - 48)) 0

/-- Python `float()` restricted to strings of digits and dots (all that
`parse_price_usd` can feed it): fails unless there is at least one digit
and at most one dot, otherwise reads `⟨int part⟩.⟨fraction⟩`. -/
def pyFloat (s : List Char) : Option ℚ :=
  if s.any Char.isDigit && Nat.ble (s.countP fun c => c == '.') 1 then
    let ip := s.takeWhile fun c => c != '.'
    let fp := (s.dropWhile fun c => c != '.').drop 1
    some ((digitsVal ip : ℚ) + (digitsVal fp : ℚ) / (10 : ℚ) ^ fp.length)
  else
    none

/-- The numeric part of a raw price string: keep digits, dots and commas
(`re.sub(r"[^\d.,]", "", s)`), then delete the commas (`.replace`). -/
def numericPart (s : List Char) : List Char :=
  (s.filter fun c => c.isDigit || c == '.' || c == ',').filter fun c => !(c == ',')

/-- Round half to even at integer precision (Python `round` ties). -/
def roundHalfEven (q : ℚ) : ℤ :=
  let f := ⌊q⌋
  let r := q - f
  if r < 1/2 then f
  else if 1/2 < r then f + 1
  else if f % 2 = 0 then f else f + 1

/-- Python `round(x, 2)` on the rational model. -/
def round2 (q : ℚ) : ℚ :=
  (roundHalfEven (q * 100) : ℚ) / 100

/-- Embedding of fetcher.parse_price_usd: extract the currency, strip the
string to its numeric part, parse it as a decimal (`none` is the
`ValueError` / ParseError), look up the rate (default 1.0) and round the
product to two decimals. -/
def parse_price_usd (s : List Char) (fx : RateMap) : Option ℚ :=
  let currency := parse_currency s
  match pyFloat (numericPart s) with
  | none => none
  | some amount => some (round2 (amount * (RateMap.find fx currency).getD 1))

/-- One raw offer as returned by the retrieval call (a fast-flights
flight object read through `getattr` with the defaults the code uses;
`price = none` models an object with no price attribute). -/
structure Flight where
  price : Option (List Char)
  name : String := ""
  duration : String := ""
  stops : ℤ := 0
  departure : String := ""
  arrival : String := ""
  is_best : Bool := false
deriving DecidableEq, Repr

/-- The opaque serialized snapshot written into `raw_offer`
(`json.dumps` of the captured fields). -/
structure RawPayload where
  name : String
  price_raw : List Char
  price_usd : ℚ
  departure : String
  arrival : String
  duration : String
  stops : ℤ
  is_best : Bool
deriving DecidableEq, Repr

/-- One row of the `fares` table (an Offer Record). -/
structure OfferRecord where
  fetched_at : String
  origin : String
  destination : String
  departure_date : String
  days_ahead : ℤ
  airline : String
  price_total : ℚ
  price_base : ℚ
  currency : String
  duration : String
  stops : ℤ
  raw_offer : RawPayload
deriving DecidableEq, Repr

/-- One row of the `fetch_log` table (a Fetch-Attempt Record). -/
structure LogRecord where
  fetched_at : String
  route : String
  days_ahead : ℤ
  status : String
  n_records : ℕ
  message : String
deriving DecidableEq, Repr

/-- The persistent store: the two append-only tables of database.py,
in insertion order. -/
structure Db where
  fares : List OfferRecord
  fetch_log : List LogRecord
deriving DecidableEq, Repr

/-- Embedding of database.init_db: idempotent schema creation, which
changes no rows. -/
def init_db (db : Db) : Db := db

/-- Embedding of database.save_fares: early return on an empty list,
otherwise append the whole batch in order in one transaction.  The
tables carry no uniqueness constraint, so the append is total. -/
def save_fares (recs : List OfferRecord) (db : Db) : Db :=
  if recs.isEmpty then db else { db with fares := db.fares ++ recs }

/-- Embedding of database.log_fetch: append exactly one audit row
(`now` stands for the `datetime.utcnow()` stamp). -/
def log_fetch (now route : String) (dh : ℤ) (status : String) (n : ℕ)
    (message : String) (db : Db) : Db :=
  { db with fetch_log := db.fetch_log ++ [⟨now, route, dh, status, n, message⟩] }

/-- The route key `f"{origin}-{destination}"`. -/
def routeKey (o d : String) : String := o ++ "-" ++ d

/-- Outcome of one `get_flights` call: the call raises, or returns a
falsy result, or returns a result carrying a (possibly empty) list of
flights. -/
inductive ModeResult where
  | raises
  | noResult
  | flights (fs : List Flight)
deriving DecidableEq, Repr

/-- Environment of one fetch_fares call: the retrieval outcome per
fetch mode, whether the store is reachable for the offer insert and for
the audit insert (an unavailable store makes the write raise), and the
clock. -/
structure FetchEnv where
  modeResult : String → ModeResult
  saveOk : Bool
  logOk : Bool
  now : String

/-- The Offer Record built from one parsed flight. -/
def mkRecord (now o d date : String) (dh : ℤ) (f : Flight) (p : List Char)
    (usd : ℚ) : OfferRecord :=
  { fetched_at := now, origin := o, destination := d, departure_date := date,
    days_ahead := dh, airline := f.name, price_total := usd, price_base := usd,
    currency := "USD", duration := f.duration, stops := f.stops,
    raw_offer := { name := f.name, price_raw := p, price_usd := usd,
                   departure := f.departure, arrival := f.arrival,
                   duration := f.duration, stops := f.stops,
                   is_best := f.is_best } }

/-- The record-building loop of fetch_fares over one batch of flights:
an offer with no price attribute is skipped outright; an offer whose
price fails to parse is skipped with a warning (second component keeps
the warned raw prices); otherwise an Offer Record is appended. -/
def buildRecords (now o d date : String) (dh : ℤ) (fx : RateMap) :
    List Flight → List OfferRecord × List (List Char)
  | [] => ([], [])
  | f :: fs =>
      let rest := buildRecords now o d date dh fx fs
      match f.price with
      | none => rest
      | some p =>
          match parse_price_usd p fx with
          | none => (rest.1, p :: rest.2)
          | some usd => (mkRecord now o d date dh f p usd :: rest.1, rest.2)

/-- The fixed mode order of fetch_fares. -/
def FETCH_MODES : List String := ["local", "fallback"]

/-- The mode loop of fetch_fares.  Each iteration runs under a broad
`except` handler: a raising retrieval call, a falsy or empty result, a
batch with no parseable price, a failing offer insert and a failing
success-audit insert all fall through to the next mode.  When the modes
are exhausted, one `error` audit row is written outside any handler, so
a store failure there propagates (`Except.error`). -/
def fetchLoop (env : FetchEnv) (o d date : String) (dh : ℤ) (fx : RateMap) :
    List String → Db → Except Unit (ℕ × Db)
  | [], db =>
      if env.logOk then
        .ok (0, log_fetch env.now (routeKey o d) dh "error" 0 "All modes failed" db)
      else .error ()
  | mode :: rest, db =>
      match env.modeResult mode with
      | .raises => fetchLoop env o d date dh fx rest db
      | .noResult => fetchLoop env o d date dh fx rest db
      | .flights fs =>
          let records := (buildRecords env.now o d date dh fx (fs.take MAX_RESULTS)).1
          if records.isEmpty then fetchLoop env o d date dh fx rest db
          else if env.saveOk then
            let db1 := save_fares records db
            if env.logOk then
              .ok (records.length,
                   log_fetch env.now (routeKey o d) dh "success" records.length
                     ("mode=" ++ mode) db1)
            else fetchLoop env o d date dh fx rest db1
          else fetchLoop env o d date dh fx rest db

/-- Embedding of fetcher.fetch_fares: run the mode loop over the fixed
mode order, returning the number of records saved (0 on exhaustion)
and the updated store, or propagating a store error from the final
audit write. -/
def fetch_fares (env : FetchEnv) (o d date : String) (dh : ℤ) (fx : RateMap)
    (db : Db) : Except Unit (ℕ × Db) :=
  fetchLoop env o d date dh fx FETCH_MODES db

/-- Decidable usability of one mode, as fetch_fares judges it: the
retrieval call returned a result whose capped batch yields at least one
Offer Record. -/
def modeUsable (env : FetchEnv) (o d date : String) (dh : ℤ) (fx : RateMap)
    (mode : String) : Bool :=
  match env.modeResult mode with
  | .flights fs => !(buildRecords env.now o d date dh fx (fs.take MAX_RESULTS)).1.isEmpty
  | _ => false

/-- One entry of config.ROUTES (the fields the driver reads, plus the
descriptive ones carried along). -/
structure RouteSpec where
  origin : String
  destination : String
  label : String := ""
  region : String := ""
  distance_km : ℤ := 0
deriving DecidableEq, Repr

/-- Environment of one fetch_all run: the FX environment, the retrieval
and store environment of each (origin, destination, horizon) call, and
the date formatting `(today + timedelta(days=dh)).strftime(...)`. -/
structure RunEnv where
  fx : FxEnv
  envOf : String → String → ℤ → FetchEnv
  dateOf : ℤ → String

/-- Result of one completed fetch_all run: the Python return value of
the function, the total printed at the end, and the final store. -/
structure RunResult where
  retVal : Option ℕ
  total_saved : ℕ
  db : Db
deriving DecidableEq, Repr

/-- The inner horizon loop of fetch_all for one route, accumulating the
running total and threading the store; a store error from fetch_fares
propagates and aborts the run. -/
def runHorizons (env : RunEnv) (fx : RateMap) (o d : String) :
    List ℤ → ℕ → Db → Except Unit (ℕ × Db)
  | [], total, db => .ok (total, db)
  | dh :: rest, total, db =>
      match fetch_fares (env.envOf o d dh) o d (env.dateOf dh) dh fx db with
      | .error e => .error e
      | .ok (n, db1) => runHorizons env fx o d rest (total + n) db1

/-- The outer route loop of fetch_all. -/
def runRoutes (env : RunEnv) (fx : RateMap) (horizons : List ℤ) :
    List RouteSpec → ℕ → Db → Except Unit (ℕ × Db)
  | [], total, db => .ok (total, db)
  | r :: rest, total, db =>
      match runHorizons env fx r.origin r.destination horizons total db with
      | .error e => .error e
      | .ok (t1, db1) => runRoutes env fx horizons rest t1 db1

/-- Embedding of fetcher.fetch_all, the Pipeline Driver: ensure the
schema, fetch the FX map once, iterate routes then horizons invoking
fetch_fares per pair, accumulate the total.  The routes and horizons are
the config.ROUTES / config.SEARCH_HORIZONS globals, passed explicitly.
The Python function body ends without a return statement, so its return
value is None: `retVal := none`. -/
def fetch_all (env : RunEnv) (routes : List RouteSpec) (horizons : List ℤ)
    (db : Db) : Except Unit RunResult :=
  let db0 := init_db db
  let fx := fetch_fx_rates env.fx
  match runRoutes env fx horizons routes 0 db0 with
  | .error e => .error e
  | .ok (total, db1) => .ok { retVal := none, total_saved := total, db := db1 }

/-- The (route key, horizon) pairs of one run, route-major — the order
in which the driver visits the Cartesian product. -/
def pairKeys : List RouteSpec → List ℤ → List (String × ℤ)
  | [], _ => []
  | r :: rest, hs =>
      hs.map (fun dh => (routeKey r.origin r.destination, dh)) ++ pairKeys rest hs

/-- The identifying key of an audit row. -/
def logKey (l : LogRecord) : String × ℤ := (l.route, l.days_ahead)

/-- Modelled from the spec (§4.2 parsing rule, for comparison with the
code's `parse_currency`): if the string begins with a dollar sign the
currency is USD; otherwise the leading 3 uppercase letters are taken as
the code, defaulting to USD if none match. -/
def specCurrency (s : List Char) : String :=
  match s with
  | '$' :: _ => "USD"
  | a :: b :: c :: _ =>
      if a.isUpper && b.isUpper && c.isUpper then String.mk [a, b, c] else "USD"
  | _ => "USD"

/-- The static fallback value of one currency. -/
def fallbackOf (c : String) : ℚ := (RateMap.find FALLBACK_RATES c).getD 0

/-- Modelled from the spec (§4.1, for comparison with the code's
`fetch_fx_rates`): the rate a currency should end up with — its live
positive value when its individual lookup succeeds, its static fallback
when the lookup fails or yields a non-positive value, and the fallback
for every currency when the provider is unreachable. -/
def specRate (env : FxEnv) (c : String) : ℚ :=
  match env.closes with
  | none => fallbackOf c
  | some cl =>
      match cl (c ++ "USD=X") with
      | some r => if 0 < r then r else fallbackOf c
      | none => fallbackOf c

/-- A raw offer priced in dollars, with every other attribute default. -/
def fl500 : Flight := { price := some ("$500".data) }

/-- A raw offer priced in lira. -/
def flTry : Flight := { price := some ("TRY 32,351".data) }

/-- A fetch environment whose local mode yields the dollar offer while
the store rejects offer inserts but accepts audit inserts. -/
def envSaveDown : FetchEnv :=
  { modeResult := fun m => if m = "local" then .flights [fl500] else .raises,
    saveOk := false, logOk := true, now := "t" }

/-- The same environment with the offer store reachable again. -/
def envSaveUp : FetchEnv := { envSaveDown with saveOk := true }

/-- A fetch environment whose local mode raises and whose fallback mode
yields the dollar offer, over a healthy store. -/
def envLocalRaises : FetchEnv :=
  { modeResult := fun m => if m = "local" then .raises else .flights [fl500],
    saveOk := true, logOk := true, now := "t" }

/-- A fetch environment in which every retrieval call raises. -/
def envAllRaise : FetchEnv :=
  { modeResult := fun _ => .raises, saveOk := true, logOk := true, now := "t" }

/-- The IST→LHR route of the end-to-end scenario. -/
def e2eRoute : RouteSpec := { origin := "IST", destination := "LHR" }

/-- The driver environment of the end-to-end scenario: the rate provider
unreachable (fallback rates), every fetch served by the local mode with
the single dollar offer, a healthy store. -/
def e2eEnv : RunEnv :=
  { fx := ⟨none⟩,
    envOf := fun _ _ _ =>
      { modeResult := fun m => if m = "local" then .flights [fl500] else .raises,
        saveOk := true, logOk := true, now := "t" },
    dateOf := fun _ => "d" }

/-- The Offer Record the end-to-end scenario produces. -/
def e2eRec : OfferRecord := mkRecord "t" "IST" "LHR" "d" 30 fl500 ("$500".data) 500

/-- The driver environment of the 2×2 attempt-count scenario: every
retrieval raises, the store is healthy. -/
def c2RunEnv : RunEnv := ⟨⟨none⟩, fun _ _ _ => envAllRaise, fun _ => "d"⟩

/-- A rate provider environment in which only the lira ticker answers,
and with a non-positive value. -/
def fxEnvW : FxEnv := ⟨some fun t => if t = "TRYUSD=X" then some (-5) else none⟩

/-- A raw offer with no price attribute at all. -/
def flNone : Flight := { price := none }

/-- The Offer Record built from the lira offer. -/
def recTry : OfferRecord := mkRecord "t" "IST" "LHR" "d" 30 flTry ("TRY 32,351".data) (88642/100)

/-- A plain Offer Record used to exercise the store. -/
def rec1 : OfferRecord :=
  { fetched_at := "t", origin := "IST", destination := "LHR",
    departure_date := "d", days_ahead := 7, airline := "", price_total := 1,
    price_base := 1, currency := "USD", duration := "", stops := 0,
    raw_offer := ⟨"", [], 1, "", "", "", 0, false⟩ }

/-- A nonempty all-digit string parses as its digit value. -/
lemma pyFloat_all_digits (s : List Char) (h : s.all Char.isDigit = true)
    (hne : s.isEmpty = false) : pyFloat s = some (digitsVal s) := by
  have hd : ∀ c ∈ s, c.isDigit = true := by
    simpa [List.all_eq_true] using h
  have hany : s.any Char.isDigit = true := by
    cases s with
    | nil => simp at hne
    | cons a l => simp [List.any_cons, hd a (by simp)]
  have hcnt : s.countP (fun c => c == '.') = 0 := by
    rw [List.countP_eq_zero]
    intro c hc
    have := hd c hc
    simp only [beq_iff_eq]
    intro hdot
    subst hdot
    simp at this
  have htake : s.takeWhile (fun c => c != '.') = s := by
    rw [List.takeWhile_eq_self_iff]
    intro c hc
    have := hd c hc
    simp only [bne_iff_ne, ne_eq]
    intro hdot
    subst hdot
    simp at this
  have hdrop : s.dropWhile (fun c => c != '.') = [] := by
    rw [List.dropWhile_eq_nil_iff]
    intro c hc
    have := hd c hc
    simp only [bne_iff_ne, ne_eq]
    intro hdot
    subst hdot
    simp at this
  simp [pyFloat, hany, hcnt, htake, hdrop, digitsVal]

/-- The lira example evaluates to 886.42 dollars. -/
lemma parseTry_val :
    parse_price_usd ['T', 'R', 'Y', ' ', '3', '2', ',', '3', '5', '1']
      [("TRY", 274/10000)] = some (88642/100) := by
  have h1 : numericPart ['T', 'R', 'Y', ' ', '3', '2', ',', '3', '5', '1'] =
      ['3', '2', '3', '5', '1'] := by decide
  have h2 : parse_currency ['T', 'R', 'Y', ' ', '3', '2', ',', '3', '5', '1'] = "TRY" := by decide
  have h3 : pyFloat ['3', '2', '3', '5', '1'] = some (digitsVal ['3', '2', '3', '5', '1']) :=
    pyFloat_all_digits _ (by decide) (by decide)
  have h4 : digitsVal ['3', '2', '3', '5', '1'] = 32351 := by decide
  rw [h4] at h3
  simp only [parse_price_usd, h1, h2, h3, RateMap.find]
  norm_num [round2, roundHalfEven]

/-- The dollar example evaluates to 1250 dollars. -/
lemma parseDollar_val :
    parse_price_usd ['$', '1', ',', '2', '5', '0'] [("GBP", 127/100)] = some 1250 := by
  have h1 : numericPart ['$', '1', ',', '2', '5', '0'] = ['1', '2', '5', '0'] := by decide
  have h2 : parse_currency ['$', '1', ',', '2', '5', '0'] = "USD" := by decide
  have h3 : pyFloat ['1', '2', '5', '0'] = some (digitsVal ['1', '2', '5', '0']) :=
    pyFloat_all_digits _ (by decide) (by decide)
  have h4 : digitsVal ['1', '2', '5', '0'] = 1250 := by decide
  have hfind : RateMap.find [("GBP", 127/100)] "USD" = none := by decide
  rw [h4] at h3
  simp only [parse_price_usd, h1, h2, h3, hfind]
  norm_num [round2, roundHalfEven]

/-- A plain `$500` quote converts to 500 under any map sending USD to 1. -/
lemma parse500 (fx : RateMap) (hfx : RateMap.find fx "USD" = some 1) :
    parse_price_usd ['$', '5', '0', '0'] fx = some 500 := by
  have h1 : numericPart ['$', '5', '0', '0'] = ['5', '0', '0'] := by decide
  have h2 : parse_currency ['$', '5', '0', '0'] = "USD" := by decide
  have h3 : pyFloat ['5', '0', '0'] = some (digitsVal ['5', '0', '0']) :=
    pyFloat_all_digits _ (by decide) (by decide)
  have h4 : digitsVal ['5', '0', '0'] = 500 := by decide
  rw [h4] at h3
  simp only [parse_price_usd, h1, h2, h3, hfx]
  norm_num [round2, roundHalfEven]

/-- C3: for every price string whose numeric part parses as a decimal
(every valid `<code><amount>` / `$<amount>` form) and every rate map,
the code's currency extraction agrees with the spec's parsing rule on
already-stripped input, and the parsed price is the numeric amount times
the map's rate for that currency (1.0 when absent), rounded half-even to
two decimals; in particular "TRY 32,351" at rate 0.0274 gives 886.42 and
"$1,250" gives 1250.00. -/
theorem parse_price_correct (s : List Char) (fx : RateMap) (a : ℚ)
    (ha : pyFloat (numericPart s) = some a) (hs : pyStrip s = s) :
    parse_currency s = specCurrency s ∧
    parse_price_usd s fx = some (round2 (a * (RateMap.find fx (parse_currency s)).getD 1)) ∧
    parse_price_usd ("TRY 32,351".data) [("TRY", 274/10000)] = some (88642/100) ∧
    parse_price_usd ("$1,250".data) [("GBP", 127/100)] = some 1250 := by
  refine ⟨?_, ?_, by simpa using parseTry_val, by simpa using parseDollar_val⟩
  · unfold parse_currency specCurrency
    rw [hs]
  · simp only [parse_price_usd, ha]

/-- C3 witness: the theorem instantiated at the lira example. -/
theorem parse_price_correct_witness :
    parse_currency ("TRY 32,351".data) = specCurrency ("TRY 32,351".data) ∧
    parse_price_usd ("TRY 32,351".data) [("TRY", 274/10000)] =
      some (round2 (32351 *
        (RateMap.find [("TRY", 274/10000)] (parse_currency ("TRY 32,351".data))).getD 1)) ∧
    parse_price_usd ("TRY 32,351".data) [("TRY", 274/10000)] = some (88642/100) ∧
    parse_price_usd ("$1,250".data) [("GBP", 127/100)] = some 1250 :=
  parse_price_correct ("TRY 32,351".data) [("TRY", 274/10000)] 32351
    (by
      have h1 : numericPart ("TRY 32,351".data) = ['3', '2', '3', '5', '1'] := by decide
      have h3 : pyFloat ['3', '2', '3', '5', '1'] =
          some (digitsVal ['3', '2', '3', '5', '1']) :=
        pyFloat_all_digits _ (by decide) (by decide)
      have h4 : digitsVal ['3', '2', '3', '5', '1'] = 32351 := by decide
      rw [h1, h3, h4]
      norm_num)
    (by decide)

/-- C7: a price string containing no digit, dot or comma fails to parse
(the ParseError), and the record-building loop drops exactly the offers
carrying such a price, keeping the rest of the batch. -/
theorem parse_error_drops_offer (s : List Char) (fx : RateMap)
    (h : s.all (fun c => !(c.isDigit || c == '.' || c == ',')) = true) :
    parse_price_usd s fx = none ∧
    ∀ (now o d date : String) (dh : ℤ) (pre post : List Flight) (f : Flight),
      f.price = some s →
      (buildRecords now o d date dh fx (pre ++ f :: post)).1 =
        (buildRecords now o d date dh fx (pre ++ post)).1 := by
  have hnum : numericPart s = [] := by
    have hall : ∀ c ∈ s, ¬((c.isDigit || c == '.' || c == ',') = true) := by
      intro c hc
      have := (List.all_eq_true.mp h) c hc
      simpa using this
    simp [numericPart, List.filter_eq_nil_iff.mpr hall]
  have hparse : parse_price_usd s fx = none := by
    simp [parse_price_usd, hnum, pyFloat]
  refine ⟨hparse, ?_⟩
  intro now o d date dh pre post f hf
  induction pre with
  | nil => simp [buildRecords, hf, hparse]
  | cons g pre ih =>
    cases hp : g.price with
    | none => simpa [buildRecords, hp] using ih
    | some p => cases hq : parse_price_usd p fx <;> simp [buildRecords, hp, hq, ih]

/-- C7 witness: the theorem instantiated at the "N/A" quote. -/
theorem parse_error_drops_offer_witness :
    parse_price_usd ("N/A".data) [("TRY", 274/10000)] = none ∧
    ∀ (now o d date : String) (dh : ℤ) (pre post : List Flight) (f : Flight),
      f.price = some ("N/A".data) →
      (buildRecords now o d date dh [("TRY", 274/10000)] (pre ++ f :: post)).1 =
        (buildRecords now o d date dh [("TRY", 274/10000)] (pre ++ post)).1 :=
  parse_error_drops_offer ("N/A".data) [("TRY", 274/10000)] (by decide)

/-- A batch in which every offer lacks a price yields no record and no
warning. -/
lemma buildRecords_nil_of_priceless (now o d date : String) (dh : ℤ) (fx : RateMap)
    (fs : List Flight) (h : ∀ f ∈ fs, f.price = none) :
    buildRecords now o d date dh fx fs = ([], []) := by
  induction fs with
  | nil => rfl
  | cons f fs ih =>
    have hp := h f (by simp)
    simp [buildRecords, hp, ih (fun g hg => h g (by simp [hg]))]

/-- C10: an offer whose price field is absent is skipped silently — no
record and no warning for any such batch — and a local mode whose offers
all lack a price advances to the fallback mode exactly as a mode that
yielded nothing. -/
theorem priceless_offers_skipped (o d date : String) (dh : ℤ) (fx : RateMap)
    (fs : List Flight) (h : ∀ f ∈ fs, f.price = none) :
    (∀ now, buildRecords now o d date dh fx fs = ([], [])) ∧
    ∀ (env : FetchEnv) (db : Db), env.modeResult "local" = .flights fs →
      fetch_fares env o d date dh fx db = fetchLoop env o d date dh fx ["fallback"] db := by
  refine ⟨fun now => buildRecords_nil_of_priceless now o d date dh fx fs h, ?_⟩
  intro env db hloc
  have h10 : ∀ f ∈ fs.take MAX_RESULTS, f.price = none :=
    fun f hf => h f (List.mem_of_mem_take hf)
  have hb := buildRecords_nil_of_priceless env.now o d date dh fx (fs.take MAX_RESULTS) h10
  simp [fetch_fares, FETCH_MODES, fetchLoop, hloc, hb]

/-- C10 witness: the theorem instantiated at a one-offer batch. -/
theorem priceless_offers_skipped_witness :
    (∀ now, buildRecords now "IST" "LHR" "d" 30 [] [flNone] = ([], [])) ∧
    ∀ (env : FetchEnv) (db : Db), env.modeResult "local" = .flights [flNone] →
      fetch_fares env "IST" "LHR" "d" 30 [] db =
        fetchLoop env "IST" "LHR" "d" 30 [] ["fallback"] db :=
  priceless_offers_skipped "IST" "LHR" "d" 30 [] [flNone] (by decide)

/-- C6 amended: every Offer Record the record-building loop creates
carries the constant "USD" in its currency field. -/
theorem offer_currency_is_usd (now o d date : String) (dh : ℤ) (fx : RateMap)
    (fs : List Flight) :
    ∀ r ∈ (buildRecords now o d date dh fx fs).1, r.currency = "USD" := by
  induction fs with
  | nil => simp [buildRecords]
  | cons f fs ih =>
    intro r hr
    cases hp : f.price with
    | none => exact ih r (by simpa [buildRecords, hp] using hr)
    | some p =>
      cases hq : parse_price_usd p fx with
      | none => exact ih r (by simpa [buildRecords, hp, hq] using hr)
      | some usd =>
        simp only [buildRecords, hp, hq] at hr
        rcases List.mem_cons.mp hr with rfl | hr
        · rfl
        · exact ih r hr

/-- C6 witness: the theorem instantiated at the lira offer's record. -/
theorem offer_currency_is_usd_witness : recTry.currency = "USD" :=
  offer_currency_is_usd "t" "IST" "LHR" "d" 30 [("TRY", 274/10000)] [flTry] recTry
    (by simp [buildRecords, flTry, parseTry_val, recTry])

/-- C6 counterexample: a lira-quoted offer produces a record whose
currency field is "USD", while the currency code of the origin quote is
"TRY". -/
theorem offer_currency_counterexample :
    (buildRecords "t" "IST" "LHR" "d" 30 [("TRY", 274/10000)] [flTry]).1.map
        OfferRecord.currency = ["USD"] ∧
    parse_currency ("TRY 32,351".data) = "TRY" ∧ ("USD" : String) ≠ "TRY" := by
  refine ⟨?_, by decide, by decide⟩
  simp [buildRecords, flTry, parseTry_val, mkRecord]

/-- A mode loop that returned a zero count visited every mode of its
list without finding a usable one. -/
lemma fetchLoop_zero_all_unusable (env : FetchEnv) (o d date : String) (dh : ℤ)
    (fx : RateMap) (hsave : env.saveOk = true) (hlog : env.logOk = true) :
    ∀ (modes : List String) (db : Db) (n : ℕ) (db1 : Db),
      fetchLoop env o d date dh fx modes db = .ok (n, db1) → n = 0 →
      ∀ m ∈ modes, modeUsable env o d date dh fx m = false := by
  intro modes
  induction modes with
  | nil => intro db n db1 _ _ m hm; simp at hm
  | cons m0 rest ih =>
    intro db n db1 heq hn m hm
    rcases List.mem_cons.mp hm with rfl | hm
    · cases hmm : env.modeResult m with
      | raises => simp [modeUsable, hmm]
      | noResult => simp [modeUsable, hmm]
      | flights fs =>
        cases hre : (buildRecords env.now o d date dh fx (fs.take MAX_RESULTS)).1.isEmpty with
        | true => simp [modeUsable, hmm, hre]
        | false =>
          exfalso
          subst hn
          simp [fetchLoop, hmm, hre, hsave, hlog] at heq
          simp [heq.1] at hre
    · cases hmm : env.modeResult m0 with
      | raises =>
        rw [fetchLoop, hmm] at heq
        exact ih db n db1 heq hn m hm
      | noResult =>
        rw [fetchLoop, hmm] at heq
        exact ih db n db1 heq hn m hm
      | flights fs =>
        cases hre : (buildRecords env.now o d date dh fx (fs.take MAX_RESULTS)).1.isEmpty with
        | true =>
          rw [fetchLoop, hmm] at heq
          simp only [hre] at heq
          simp only [if_true] at heq
          exact ih db n db1 heq hn m hm
        | false =>
          exfalso
          subst hn
          simp [fetchLoop, hmm, hre, hsave, hlog] at heq
          simp [heq.1] at hre

/-- C1: over a healthy store, whenever the local mode raises, returns no
result, returns zero offers or returns offers none of which yields a
record, fetch_fares behaves exactly as the loop started at the fallback
mode (the fallback retrieval is consulted); and a zero-count (failure)
outcome can only be returned with both modes having been unusable. -/
theorem fallback_tried_before_failure (env : FetchEnv) (o d date : String)
    (dh : ℤ) (fx : RateMap) (db : Db)
    (hsave : env.saveOk = true) (hlog : env.logOk = true) :
    (modeUsable env o d date dh fx "local" = false →
      fetch_fares env o d date dh fx db = fetchLoop env o d date dh fx ["fallback"] db) ∧
    (∀ (n : ℕ) (db1 : Db), fetch_fares env o d date dh fx db = .ok (n, db1) → n = 0 →
      modeUsable env o d date dh fx "local" = false ∧
      modeUsable env o d date dh fx "fallback" = false) := by
  constructor
  · intro hu
    cases hm : env.modeResult "local" with
    | raises => simp [fetch_fares, FETCH_MODES, fetchLoop, hm]
    | noResult => simp [fetch_fares, FETCH_MODES, fetchLoop, hm]
    | flights fs =>
      have hre : (buildRecords env.now o d date dh fx (fs.take MAX_RESULTS)).1.isEmpty = true := by
        simpa [modeUsable, hm] using hu
      simp [fetch_fares, FETCH_MODES, fetchLoop, hm, hre]
  · intro n db1 heq hn
    have hall := fetchLoop_zero_all_unusable env o d date dh fx hsave hlog
      FETCH_MODES db n db1 heq hn
    exact ⟨hall "local" (by simp [FETCH_MODES]), hall "fallback" (by simp [FETCH_MODES])⟩

/-- C1 witness: the theorem instantiated at an environment whose local
retrieval raises and whose fallback yields the dollar offer. -/
theorem fallback_tried_before_failure_witness :
    (modeUsable envLocalRaises "IST" "LHR" "d" 30 [("USD", 1)] "local" = false →
      fetch_fares envLocalRaises "IST" "LHR" "d" 30 [("USD", 1)] ⟨[], []⟩ =
        fetchLoop envLocalRaises "IST" "LHR" "d" 30 [("USD", 1)] ["fallback"] ⟨[], []⟩) ∧
    (∀ (n : ℕ) (db1 : Db),
      fetch_fares envLocalRaises "IST" "LHR" "d" 30 [("USD", 1)] ⟨[], []⟩ = .ok (n, db1) →
      n = 0 →
      modeUsable envLocalRaises "IST" "LHR" "d" 30 [("USD", 1)] "local" = false ∧
      modeUsable envLocalRaises "IST" "LHR" "d" 30 [("USD", 1)] "fallback" = false) :=
  fallback_tried_before_failure envLocalRaises "IST" "LHR" "d" 30 [("USD", 1)] ⟨[], []⟩
    rfl rfl

/-- C5 amended: fetch_fares aborts (propagates a store error) exactly
when the audit-log store is unreachable; with audit writes available it
always completes, even when every offer insert fails. -/
theorem abort_iff_audit_write_fails (env : FetchEnv) (o d date : String)
    (dh : ℤ) (fx : RateMap) (db : Db) :
    (fetch_fares env o d date dh fx db).isOk = env.logOk := by
  suffices h : ∀ (modes : List String) (db0 : Db),
      (fetchLoop env o d date dh fx modes db0).isOk = env.logOk from h FETCH_MODES db
  intro modes
  induction modes with
  | nil =>
    intro db0
    cases hl : env.logOk <;> simp [fetchLoop, hl, Except.isOk, Except.toBool]
  | cons m rest ih =>
    intro db0
    cases hm : env.modeResult m with
    | raises => simp [fetchLoop, hm, ih]
    | noResult => simp [fetchLoop, hm, ih]
    | flights fs =>
      cases hre : (buildRecords env.now o d date dh fx (fs.take MAX_RESULTS)).1.isEmpty <;>
        cases hsa : env.saveOk <;> cases hl : env.logOk <;>
          (simp [fetchLoop, hm, hre, hsa, hl, ih]; try rfl)

/-- C5 counterexample: with the offer store down but the audit store up,
a run whose local mode has a savable offer fails its save write yet
completes normally with a logged error attempt — the store-write failure
does not abort the run; restoring the offer store turns the same run
into a success, showing the save write is exercised. -/
theorem store_save_failure_not_fatal :
    fetch_fares envSaveDown "IST" "LHR" "d" 30 [("USD", 1)] ⟨[], []⟩ =
      .ok (0, ⟨[], [⟨"t", "IST-LHR", 30, "error", 0, "All modes failed"⟩]⟩) ∧
    fetch_fares envSaveUp "IST" "LHR" "d" 30 [("USD", 1)] ⟨[], []⟩ =
      .ok (1, ⟨[mkRecord "t" "IST" "LHR" "d" 30 fl500 ("$500".data) 500],
               [⟨"t", "IST-LHR", 30, "success", 1, "mode=local"⟩]⟩) := by
  have hp : parse_price_usd ['$', '5', '0', '0'] [("USD", 1)] = some 500 :=
    parse500 _ (by decide)
  constructor <;>
    simp [fetch_fares, FETCH_MODES, fetchLoop, envSaveDown, envSaveUp, MAX_RESULTS,
      buildRecords, fl500, hp, save_fares, log_fetch, routeKey, mkRecord]

/-- Saving offers never touches the audit table. -/
lemma save_fares_fetch_log (recs : List OfferRecord) (db : Db) :
    (save_fares recs db).fetch_log = db.fetch_log := by
  unfold save_fares
  split <;> rfl

/-- With the audit store up, the mode loop always completes and appends
exactly one audit row, keyed by the route and horizon of the call. -/
lemma fetchLoop_ok_one_log (env : FetchEnv) (o d date : String) (dh : ℤ)
    (fx : RateMap) (hlog : env.logOk = true) :
    ∀ (modes : List String) (db : Db), ∃ (n : ℕ) (db1 : Db),
      fetchLoop env o d date dh fx modes db = .ok (n, db1) ∧
      db1.fetch_log.map logKey = db.fetch_log.map logKey ++ [(routeKey o d, dh)] := by
  intro modes
  induction modes with
  | nil =>
    intro db
    refine ⟨0, log_fetch env.now (routeKey o d) dh "error" 0 "All modes failed" db, ?_, ?_⟩
    · simp [fetchLoop, hlog]
    · simp [log_fetch, logKey]
  | cons m rest ih =>
    intro db
    cases hm : env.modeResult m with
    | raises => simpa [fetchLoop, hm] using ih db
    | noResult => simpa [fetchLoop, hm] using ih db
    | flights fs =>
      cases hre : (buildRecords env.now o d date dh fx (fs.take MAX_RESULTS)).1.isEmpty with
      | true => simpa [fetchLoop, hm, hre] using ih db
      | false =>
        cases hsa : env.saveOk with
        | false => simpa [fetchLoop, hm, hre, hsa] using ih db
        | true =>
          refine ⟨(buildRecords env.now o d date dh fx (fs.take MAX_RESULTS)).1.length,
            log_fetch env.now (routeKey o d) dh "success"
              (buildRecords env.now o d date dh fx (fs.take MAX_RESULTS)).1.length
              ("mode=" ++ m)
              (save_fares (buildRecords env.now o d date dh fx (fs.take MAX_RESULTS)).1 db),
            ?_, ?_⟩
          · simp [fetchLoop, hm, hre, hsa, hlog]
          · simp [log_fetch, logKey, save_fares_fetch_log]

/-- The horizon loop of the driver appends one audit row per horizon, in
order. -/
lemma runHorizons_ok_logs (env : RunEnv) (fx : RateMap) (o d : String)
    (hlog : ∀ dh, (env.envOf o d dh).logOk = true) :
    ∀ (hs : List ℤ) (total : ℕ) (db : Db), ∃ (t1 : ℕ) (db1 : Db),
      runHorizons env fx o d hs total db = .ok (t1, db1) ∧
      db1.fetch_log.map logKey =
        db.fetch_log.map logKey ++ hs.map (fun dh => (routeKey o d, dh)) := by
  intro hs
  induction hs with
  | nil => intro total db; exact ⟨total, db, rfl, by simp⟩
  | cons dh rest ih =>
    intro total db
    obtain ⟨n, db1, heq, hl1⟩ :=
      fetchLoop_ok_one_log (env.envOf o d dh) o d (env.dateOf dh) dh fx (hlog dh)
        FETCH_MODES db
    obtain ⟨t1, db2, heq2, hl2⟩ := ih (total + n) db1
    refine ⟨t1, db2, ?_, ?_⟩
    · simp only [runHorizons, fetch_fares] at heq ⊢
      rw [heq]
      simpa using heq2
    · rw [hl2, hl1]
      simp

/-- The route loop of the driver appends one audit row per
(route, horizon) pair, route-major. -/
lemma runRoutes_ok_logs (env : RunEnv) (fx : RateMap) (horizons : List ℤ)
    (hlog : ∀ o d dh, (env.envOf o d dh).logOk = true) :
    ∀ (rs : List RouteSpec) (total : ℕ) (db : Db), ∃ (t1 : ℕ) (db1 : Db),
      runRoutes env fx horizons rs total db = .ok (t1, db1) ∧
      db1.fetch_log.map logKey = db.fetch_log.map logKey ++ pairKeys rs horizons := by
  intro rs
  induction rs with
  | nil => intro total db; exact ⟨total, db, rfl, by simp [pairKeys]⟩
  | cons r rest ih =>
    intro total db
    obtain ⟨t1, db1, heq1, hl1⟩ :=
      runHorizons_ok_logs env fx r.origin r.destination (fun dh => hlog _ _ dh)
        horizons total db
    obtain ⟨t2, db2, heq2, hl2⟩ := ih t1 db1
    refine ⟨t2, db2, ?_, ?_⟩
    · simp only [runRoutes]
      rw [heq1]
      simpa using heq2
    · rw [hl2, hl1, pairKeys, List.append_assoc]

/-- The Cartesian product has one pair per route and horizon. -/
lemma pairKeys_length :
    ∀ (rs : List RouteSpec) (hs : List ℤ),
      (pairKeys rs hs).length = rs.length * hs.length := by
  intro rs hs
  induction rs with
  | nil => simp [pairKeys]
  | cons r rest ih => simp [pairKeys, ih, Nat.succ_mul, Nat.add_comm]

/-- C2: with the audit store reachable, one run of the driver completes
and appends exactly one Fetch-Attempt Record per (route, horizon) pair —
`routes × horizons` records in route-major order — whatever each
individual retrieval does. -/
theorem one_attempt_record_per_pair (env : RunEnv) (routes : List RouteSpec)
    (horizons : List ℤ) (db : Db)
    (hlog : ∀ o d dh, (env.envOf o d dh).logOk = true) :
    ∃ r : RunResult, fetch_all env routes horizons db = .ok r ∧
      r.db.fetch_log.map logKey = db.fetch_log.map logKey ++ pairKeys routes horizons ∧
      r.db.fetch_log.length = db.fetch_log.length + routes.length * horizons.length := by
  obtain ⟨t1, db1, heq, hl⟩ :=
    runRoutes_ok_logs env (fetch_fx_rates env.fx) horizons hlog routes 0 (init_db db)
  refine ⟨⟨none, t1, db1⟩, ?_, ?_, ?_⟩
  · simp [fetch_all]
    rw [heq]
  · simpa [init_db] using hl
  · have hlen := congrArg List.length hl
    simpa [init_db, pairKeys_length] using hlen

/-- C2 witness: the theorem instantiated at 2 routes × 2 horizons with
every retrieval raising. -/
theorem one_attempt_record_per_pair_witness :
    ∃ r : RunResult,
      fetch_all c2RunEnv [{ origin := "IST", destination := "NRT" },
        { origin := "IST", destination := "LHR" }] [7, 30] ⟨[], []⟩ = .ok r ∧
      r.db.fetch_log.length = 4 := by
  obtain ⟨r, h1, _, h3⟩ :=
    one_attempt_record_per_pair c2RunEnv
      [{ origin := "IST", destination := "NRT" }, { origin := "IST", destination := "LHR" }]
      [7, 30] ⟨[], []⟩ (fun _ _ _ => rfl)
  exact ⟨r, h1, by simpa using h3⟩

/-- The rate dict produced when the provider is unreachable. -/
lemma fx_fallback_dict :
    fetch_fx_rates ⟨none⟩ =
      [("USD", 1), ("TRY", 274/10000), ("EUR", 108/100), ("GBP", 127/100)] := rfl

/-- The end-to-end scenario: one IST-LHR route, horizon 30, local mode
serving one offer priced "$500", rate provider down. -/
lemma e2e_run :
    fetch_all e2eEnv [e2eRoute] [30] ⟨[], []⟩ =
      .ok ⟨none, 1, ⟨[e2eRec], [⟨"t", "IST-LHR", 30, "success", 1, "mode=local"⟩]⟩⟩ := by
  have hp : parse_price_usd ['$', '5', '0', '0'] (fetch_fx_rates ⟨none⟩) = some 500 :=
    parse500 _ (by rw [fx_fallback_dict]; decide)
  simp [fetch_all, init_db, runRoutes, runHorizons, fetch_fares, FETCH_MODES, fetchLoop,
    e2eEnv, e2eRoute, MAX_RESULTS, buildRecords, fl500, hp, save_fares, log_fetch,
    routeKey, e2eRec, mkRecord]

/-- C4 amended: a completed fetch_all run always carries the Python
return value None, while the accumulated total is only printed; in the
end-to-end $500 scenario that total is 1, with one Offer Record priced
500.00 and one success Fetch-Attempt Record. -/
theorem run_once_total_not_returned :
    (∀ (env : RunEnv) (routes : List RouteSpec) (horizons : List ℤ) (db : Db),
        ((fetch_all env routes horizons db).toOption.all fun r => r.retVal == none) = true) ∧
    fetch_all e2eEnv [e2eRoute] [30] ⟨[], []⟩ =
      .ok ⟨none, 1, ⟨[e2eRec], [⟨"t", "IST-LHR", 30, "success", 1, "mode=local"⟩]⟩⟩ ∧
    e2eRec.price_total = 500 := by
  refine ⟨?_, e2e_run, rfl⟩
  intro env routes horizons db
  unfold fetch_all
  cases h : runRoutes env (fetch_fx_rates env.fx) horizons routes 0 (init_db db) with
  | error e => simp [h, Except.toOption]
  | ok p =>
    obtain ⟨t, db1⟩ := p
    simp [h, Except.toOption, Option.all]

/-- C4 counterexample: in the end-to-end scenario fetch_all returns the
Python value None while the total it accumulated (and printed) is 1 —
the total is not returned as an integer. -/
theorem run_once_returns_none :
    (fetch_all e2eEnv [e2eRoute] [30] ⟨[], []⟩).toOption.map
      (fun r => (r.retVal, r.total_saved)) = some (none, 1) := by
  rw [e2e_run]
  rfl

/-- Lookup after a dict assignment. -/
lemma find_dinsert (m : RateMap) (k : String) (v : ℚ) (c : String) :
    RateMap.find (dinsert m k v) c = if k = c then some v else RateMap.find m c := by
  induction m with
  | nil => simp [dinsert, RateMap.find]
  | cons kv rest ih =>
    obtain ⟨k1, v1⟩ := kv
    by_cases hk : k1 = k
    · subst hk
      by_cases hc : k1 = c <;> simp [dinsert, RateMap.find, hc]
    · by_cases hc : k1 = c
      · subst hc
        have hkc : ¬ k = k1 := fun h => hk h.symm
        simp [dinsert, RateMap.find, hk, hkc]
      · simp [dinsert, RateMap.find, hk, hc, ih]

/-- C8: for every provider behaviour, fetch_fx_rates returns a total
map that sends USD to 1.0 and gives every needed currency its live
positive rate, substituting the static fallback exactly when that
currency's lookup fails or is non-positive — and the whole fallback
table when the provider is unreachable. -/
theorem fx_rates_total_with_fallback (env : FxEnv) :
    RateMap.find (fetch_fx_rates env) "USD" = some 1 ∧
    ∀ c ∈ CURRENCIES_NEEDED, RateMap.find (fetch_fx_rates env) c = some (specRate env c) := by
  cases henv : env.closes with
  | none =>
    refine ⟨?_, ?_⟩
    · simp [fetch_fx_rates, henv]
      rfl
    · intro c hc
      have hc3 : c = "TRY" ∨ c = "EUR" ∨ c = "GBP" := by
        simpa [CURRENCIES_NEEDED] using hc
      rcases hc3 with rfl | rfl | rfl <;> simp [fetch_fx_rates, henv, specRate] <;> rfl
  | some cl =>
    have hTt : ("TRY" : String) ++ "USD=X" = "TRYUSD=X" := rfl
    have hEt : ("EUR" : String) ++ "USD=X" = "EURUSD=X" := rfl
    have hGt : ("GBP" : String) ++ "USD=X" = "GBPUSD=X" := rfl
    refine ⟨?_, ?_⟩
    · cases hT : cl "TRYUSD=X" <;> cases hE : cl "EURUSD=X" <;> cases hG : cl "GBPUSD=X" <;>
        · simp only [fetch_fx_rates, henv, CURRENCIES_NEEDED, List.foldl, hTt, hEt, hGt,
            hT, hE, hG]
          first
            | (split_ifs <;> simp [find_dinsert, RateMap.find])
            | simp [find_dinsert, RateMap.find]
    · intro c hc
      have hc3 : c = "TRY" ∨ c = "EUR" ∨ c = "GBP" := by
        simpa [CURRENCIES_NEEDED] using hc
      rcases hc3 with rfl | rfl | rfl <;>
        · cases hT : cl "TRYUSD=X" <;> cases hE : cl "EURUSD=X" <;> cases hG : cl "GBPUSD=X" <;>
            · simp only [fetch_fx_rates, henv, CURRENCIES_NEEDED, List.foldl, specRate,
                hTt, hEt, hGt, hT, hE, hG]
              first
                | (split_ifs <;> simp [find_dinsert, RateMap.find, fallbackOf] <;> linarith)
                | simp [find_dinsert, RateMap.find, fallbackOf]

/-- C8 witness: the theorem instantiated at a provider that only
answers the lira ticker, with a non-positive value. -/
theorem fx_rates_total_with_fallback_witness :
    RateMap.find (fetch_fx_rates fxEnvW) "USD" = some 1 ∧
    RateMap.find (fetch_fx_rates fxEnvW) "TRY" = some (specRate fxEnvW "TRY") :=
  ⟨(fx_rates_total_with_fallback fxEnvW).1,
   (fx_rates_total_with_fallback fxEnvW).2 "TRY" (by decide)⟩

/-- C9: saving an empty batch is a no-op on the whole store and writes
no attempt record; saving any non-empty batch — duplicates included —
appends exactly that batch to the fares table and never touches the
audit table. -/
theorem save_fares_frame (db : Db) (recs : List OfferRecord) :
    save_fares [] db = db ∧
    (save_fares recs db).fetch_log = db.fetch_log ∧
    (recs ≠ [] → save_fares recs db = ⟨db.fares ++ recs, db.fetch_log⟩) := by
  refine ⟨rfl, save_fares_fetch_log recs db, ?_⟩
  intro h
  have hne : recs.isEmpty = false := by simpa [List.isEmpty_iff] using h
  simp [save_fares, hne]

/-- C9 witness: the theorem instantiated at a duplicate batch over a
store that already holds the same row. -/
theorem save_fares_frame_witness :
    save_fares [rec1, rec1] (Db.mk [rec1] []) = Db.mk ([rec1] ++ [rec1, rec1]) [] :=
  (save_fares_frame (Db.mk [rec1] []) [rec1, rec1]).2.2 (by simp)

end ThyTicket
